import Mathlib

/-!
Verification of an authenticated Node.js forward proxy (`proxy.js`).

The development shallowly embeds the proxy's request-mediation path:
credential verification (`checkBasicAuth`), destination authorization
(`hostAllowed`), the HTTP relay (`server.on('request')`) and the CONNECT
tunnel relay (`server.on('connect')`).  JavaScript strings are modelled as
`List Char`, byte sequences as `List Nat`, and the Node library functions
the source calls (`Buffer.from(·,'base64')`, `Buffer.toString('utf8')`,
`parseInt(·,10)`, `String.split`, the test of the regular expressions of the
source) are modelled explicitly and faithfully to the Node 18 runtime named
by the repository's Dockerfile.  WHATWG URL parsing (`new url.URL`) is kept
abstract as a function parameter of the HTTP relay.
-/

namespace TeheProxy

/-- JavaScript strings (sequences of UTF-16-ish code points; all the data the
proxy manipulates stays within plain code points, modelled as `Char`). -/
abbrev Str := List Char

/-- Characters matched by `\s` in a JavaScript regular expression, which is
also exactly the set trimmed by `parseInt` (ECMAScript WhiteSpace plus
LineTerminator). -/
def isJsWhitespace (c : Char) : Bool :=
  decide (c.toNat = 0x20 ∨ c.toNat = 0x09 ∨ c.toNat = 0x0A ∨
    c.toNat = 0x0B ∨ c.toNat = 0x0C ∨ c.toNat = 0x0D ∨
    c.toNat = 0xA0 ∨ c.toNat = 0x1680 ∨
    (0x2000 ≤ c.toNat ∧ c.toNat ≤ 0x200A) ∨
    c.toNat = 0x2028 ∨ c.toNat = 0x2029 ∨ c.toNat = 0x202F ∨
    c.toNat = 0x205F ∨ c.toNat = 0x3000 ∨ c.toNat = 0xFEFF)

/-- ECMAScript LineTerminator characters: `.` in a JavaScript regex (without
the `s` flag) matches every character except these. -/
def isLineTerminator (c : Char) : Bool :=
  decide (c.toNat = 0x0A ∨ c.toNat = 0x0D ∨ c.toNat = 0x2028 ∨
    c.toNat = 0x2029)

/-- JavaScript `String.prototype.split(sep)` for a one-character separator:
splits on every occurrence, always returns at least one (possibly empty)
component. -/
def splitOnChar (sep : Char) : Str → List Str
  | [] => [[]]
  | c :: cs =>
    if c = sep then [] :: splitOnChar sep cs
    else
      match splitOnChar sep cs with
      | [] => [[c]]
      | s :: rest => (c :: s) :: rest

/-- Case-insensitive prefix test against an all-lowercase ASCII pattern,
modelling how a JavaScript `/i` regex (without the `u` flag) matches a
literal run of ASCII letters. -/
def startsWithCaseless : Str → Str → Bool
  | [], _ => true
  | _ :: _, [] => false
  | p :: ps, c :: cs => (c.toLower == p) && startsWithCaseless ps cs

/-- Value of one character of the base64 alphabet as accepted by Node's
`Buffer.from(s, 'base64')`: both the standard and the URL-safe alphabet are
accepted; every other character is skipped by the decoder (and `=` ends the
decode before this table is consulted). -/
def base64Val (c : Char) : Option Nat :=
  if 'A' ≤ c ∧ c ≤ 'Z' then some (c.toNat - 'A'.toNat)
  else if 'a' ≤ c ∧ c ≤ 'z' then some (c.toNat - 'a'.toNat + 26)
  else if '0' ≤ c ∧ c ≤ '9' then some (c.toNat - '0'.toNat + 52)
  else if c = '+' ∨ c = '-' then some 62
  else if c = '/' ∨ c = '_' then some 63
  else none

/-- Byte output of Node base64 decoding from the sequence of 6-bit values:
groups of four values give three bytes; a final group of two or three values
gives one or two bytes; a lone final value gives nothing. -/
def base64Group : List Nat → List Nat
  | a :: b :: c :: d :: rest =>
    (a * 4 + b / 16) :: ((b % 16) * 16 + c / 4) :: ((c % 4) * 64 + d) ::
      base64Group rest
  | [a, b] => [a * 4 + b / 16]
  | [a, b, c] => [a * 4 + b / 16, (b % 16) * 16 + c / 4]
  | _ => []

/-- Node 18 `Buffer.from(s, 'base64')`: decoding stops at the first `=`
padding character; before it, characters outside the (standard or URL-safe)
base64 alphabet — whitespace, arbitrary junk — are skipped, and the
remaining 6-bit values are packed into bytes. -/
def base64DecodeBytes (s : Str) : List Nat :=
  base64Group ((s.takeWhile (fun c => c != '=')).filterMap base64Val)

/-- The Unicode replacement character emitted for invalid UTF-8. -/
def replChar : Char := Char.ofNat 0xFFFD

/-- Admissible range of the second byte of a multi-byte UTF-8 sequence whose
lead byte is `b1` (WHATWG: `E0` needs `A0..BF`, `ED` needs `80..9F`,
`F0` needs `90..BF`, `F4` needs `80..8F`, all others `80..BF`). -/
def utf8SecondOk (b1 b2 : Nat) : Bool :=
  if b1 = 0xE0 then decide (0xA0 ≤ b2 ∧ b2 ≤ 0xBF)
  else if b1 = 0xED then decide (0x80 ≤ b2 ∧ b2 ≤ 0x9F)
  else if b1 = 0xF0 then decide (0x90 ≤ b2 ∧ b2 ≤ 0xBF)
  else if b1 = 0xF4 then decide (0x80 ≤ b2 ∧ b2 ≤ 0x8F)
  else decide (0x80 ≤ b2 ∧ b2 ≤ 0xBF)

/-- A UTF-8 continuation byte. -/
def utf8Cont (b : Nat) : Bool := decide (0x80 ≤ b ∧ b ≤ 0xBF)

/-- WHATWG UTF-8 decoding with replacement on error, on explicit fuel (the
fuel is structural so that the definition evaluates by reduction; each step
consumes at least one byte, so any fuel of at least the input length gives
the decoder's value).  Models Node `Buffer.prototype.toString('utf8')`. -/
def utf8DecodeF : Nat → List Nat → List Char
  | 0, _ => []
  | _ + 1, [] => []
  | f + 1, b1 :: bs =>
    if b1 < 0x80 then Char.ofNat b1 :: utf8DecodeF f bs
    else if 0xC2 ≤ b1 ∧ b1 ≤ 0xDF then
      match bs with
      | [] => [replChar]
      | b2 :: bs2 =>
        if utf8Cont b2 then
          Char.ofNat ((b1 - 0xC0) * 0x40 + (b2 - 0x80)) :: utf8DecodeF f bs2
        else replChar :: utf8DecodeF f (b2 :: bs2)
    else if 0xE0 ≤ b1 ∧ b1 ≤ 0xEF then
      match bs with
      | [] => [replChar]
      | b2 :: bs2 =>
        if utf8SecondOk b1 b2 then
          match bs2 with
          | [] => [replChar]
          | b3 :: bs3 =>
            if utf8Cont b3 then
              Char.ofNat ((b1 - 0xE0) * 0x1000 + (b2 - 0x80) * 0x40 +
                (b3 - 0x80)) :: utf8DecodeF f bs3
            else replChar :: utf8DecodeF f (b3 :: bs3)
        else replChar :: utf8DecodeF f (b2 :: bs2)
    else if 0xF0 ≤ b1 ∧ b1 ≤ 0xF4 then
      match bs with
      | [] => [replChar]
      | b2 :: bs2 =>
        if utf8SecondOk b1 b2 then
          match bs2 with
          | [] => [replChar]
          | b3 :: bs3 =>
            if utf8Cont b3 then
              match bs3 with
              | [] => [replChar]
              | b4 :: bs4 =>
                if utf8Cont b4 then
                  Char.ofNat ((b1 - 0xF0) * 0x40000 + (b2 - 0x80) * 0x1000 +
                    (b3 - 0x80) * 0x40 + (b4 - 0x80)) :: utf8DecodeF f bs4
                else replChar :: utf8DecodeF f (b4 :: bs4)
            else replChar :: utf8DecodeF f (b3 :: bs3)
        else replChar :: utf8DecodeF f (b2 :: bs2)
    else replChar :: utf8DecodeF f bs

/-- UTF-8 decoding of a byte sequence (fuel instantiated so it never runs
out). -/
def utf8Decode (bs : List Nat) : List Char :=
  utf8DecodeF (bs.length + 1) bs

/-- UTF-8 encoding of one code point. -/
def utf8EncodeChar (c : Char) : List Nat :=
  let n := c.toNat
  if n < 0x80 then [n]
  else if n < 0x800 then [0xC0 + n / 0x40, 0x80 + n % 0x40]
  else if n < 0x10000 then
    [0xE0 + n / 0x1000, 0x80 + (n / 0x40) % 0x40, 0x80 + n % 0x40]
  else
    [0xF0 + n / 0x40000, 0x80 + (n / 0x1000) % 0x40,
     0x80 + (n / 0x40) % 0x40, 0x80 + n % 0x40]

/-- UTF-8 encoding of a string, modelling Node `socket.write(str)` /
`res.end(str)` with the default encoding. -/
def utf8Encode : Str → List Nat
  | [] => []
  | c :: cs => utf8EncodeChar c ++ utf8Encode cs

/-- JavaScript `parseInt(s, 10)`: skip leading whitespace, read an optional
sign and then the longest run of decimal digits; `none` models `NaN`.
(Values are modelled exactly; the proxy only meets small port numbers.) -/
def jsParseInt10 (s : Str) : Option Int :=
  let t := s.dropWhile isJsWhitespace
  match t with
  | '-' :: r =>
    (if (r.takeWhile Char.isDigit) = [] then none
     else some ((r.takeWhile Char.isDigit).foldl
       (fun n c => n * 10 + (c.toNat - '0'.toNat)) 0)).map (fun n => -(n : Int))
  | '+' :: r =>
    (if (r.takeWhile Char.isDigit) = [] then none
     else some ((r.takeWhile Char.isDigit).foldl
       (fun n c => n * 10 + (c.toNat - '0'.toNat)) 0)).map (fun n => (n : Int))
  | r =>
    (if (r.takeWhile Char.isDigit) = [] then none
     else some ((r.takeWhile Char.isDigit).foldl
       (fun n c => n * 10 + (c.toNat - '0'.toNat)) 0)).map (fun n => (n : Int))

/-- The configuration record the process builds once at startup from the
environment: credential pair and destination allow-list (empty = allow
all). -/
structure ProxyConfig where
  user : Str
  pass : Str
  whitelist : List Str

/-- `const [user, pass] = decoded.split(':'); return user === PROXY_USER &&
pass === PROXY_PASS` — with fewer than two components the destructured
`pass` (or both) is `undefined`, and `undefined === someString` is `false`,
so every such case yields `false`. -/
def checkCreds (cfg : ProxyConfig) : List Str → Bool
  | u :: p :: _ => u == cfg.user && p == cfg.pass
  | _ => false

/-- The credential comparison of `checkBasicAuth` on an already-decoded
payload: split on every `:` and compare the first two components. -/
def checkBasicAuthDecoded (cfg : ProxyConfig) (decoded : Str) : Bool :=
  checkCreds cfg (splitOnChar ':' decoded)

/-- The match of `/^Basic\s+(.+)$/i` against `h`, returning the first
capture group.  The pattern matches when `h` is caseless `Basic`, then at
least one whitespace character, then a non-empty remainder free of line
terminators; backtracking of the greedy `\s+` makes the captured payload
the remainder after the longest whitespace run that leaves such a
remainder.  `tryFrom h i` scans candidate splits from `i` downward. -/
def tryFrom (rest : Str) : Nat → Option Str
  | 0 => none
  | i + 1 =>
    let p := rest.drop (i + 1)
    if p ≠ [] ∧ p.all (fun c => ¬ isLineTerminator c) then some p
    else tryFrom rest i

/-- Payload captured by `header.match(/^Basic\s+(.+)$/i)`, `none` when the
regex does not match. -/
def basicPayload (h : Str) : Option Str :=
  if startsWithCaseless ("basic".toList) h then
    let rest := h.drop 5
    tryFrom rest ((rest.takeWhile isJsWhitespace).length)
  else none

/-- `checkBasicAuth(header)` from proxy.js: `false` on an absent or empty
header, `false` when the Basic regex does not match, otherwise base64-decode
the payload, UTF-8-decode the bytes, split on `:` and compare with the
configured pair.  The source's `try`/`catch` is dead code — Node base64
decoding of a string never throws — so the model is a total boolean
function. -/
def checkBasicAuth (cfg : ProxyConfig) (header : Option Str) : Bool :=
  match header with
  | none => false
  | some h =>
    if h = [] then false
    else
      match basicPayload h with
      | none => false
      | some payload =>
        checkBasicAuthDecoded cfg (utf8Decode (base64DecodeBytes payload))

/-- `hostAllowed(hostname)` from proxy.js: an empty whitelist allows every
host; otherwise take `hostname.split(':')[0]` and test membership with
`Array.prototype.includes` (exact, case-sensitive string equality). -/
def hostAllowed (cfg : ProxyConfig) (hostname : Str) : Bool :=
  if cfg.whitelist.length = 0 then true
  else cfg.whitelist.contains ((splitOnChar ':' hostname).headD [])

/-- A header object: unique keys mapping to values.  For incoming requests
Node has already lowercased the names; response-side objects carry whatever
names the code writes. -/
abbrev Headers := List (Str × Str)

/-- `headers[k]`: value of the (unique) key `k`, `none` when absent. -/
def lookupHeader (hs : Headers) (k : Str) : Option Str :=
  (hs.find? (fun kv => kv.1 == k)).map (fun kv => kv.2)

/-- The hop-by-hop names deleted from the upstream response before
`res.writeHead` (proxy.js line 85). -/
def hopByHopNames : List Str :=
  (["transfer-encoding", "connection", "keep-alive", "proxy-authenticate",
    "proxy-authorization", "te", "trailer", "upgrade"]).map String.toList

/-- The proxy-specific names deleted from the client request before
forwarding (proxy.js lines 77-79). -/
def reqStripNames : List Str :=
  (["proxy-authorization", "proxy-connection", "connection"]).map
    String.toList

/-- `delete headers[h]` for each hop-by-hop name, on a copy of the upstream
response headers. -/
def stripHopByHop (hs : Headers) : Headers :=
  hs.filter (fun kv => !(hopByHopNames.contains kv.1))

/-- `delete options.headers[...]` for the proxy-specific request names, on a
copy of the client request headers. -/
def stripReqHeaders (hs : Headers) : Headers :=
  hs.filter (fun kv => !(reqStripNames.contains kv.1))

/-- The piece of a parsed WHATWG URL the proxy reads.  `new url.URL` itself
is Node library code and is kept abstract: the HTTP relay takes the parser
as a function parameter, `none` modelling the constructor throwing. -/
structure Url where
  hostname : Str
deriving DecidableEq

/-- An incoming standard HTTP request as the relay sees it: method, request
target (`req.url`), the (Node-lowercased) header object, and the request
body bytes that `req.pipe(upstream)` forwards. -/
structure HttpRequest where
  method : Str
  url : Str
  headers : Headers
  body : List Nat

/-- The header name the relays read the credential from (Node lowercases
incoming header names). -/
def paKey : Str := "proxy-authorization".toList

/-- The `Host` header name. -/
def hostKey : Str := "host".toList

/-- `/^https?:\/\//i.test(req.url)` — absolute-form request target. -/
def isAbsoluteHttpUrl (l : Str) : Bool :=
  startsWithCaseless ("http://".toList) l ||
  startsWithCaseless ("https://".toList) l

/-- Why target resolution failed: missing `Host` header (400), or
`new url.URL` threw (400). -/
inductive ResolveError where
  | missingHost
  | invalidUrl
deriving DecidableEq

/-- Target resolution of the HTTP relay (proxy.js lines 47-64): an
absolute-form target is parsed directly; otherwise the `Host` header is
required and `http://` ++ host ++ path is parsed.  The source's
`if (!hostHeader)` is a JavaScript falsiness test, so an absent header and
a present-but-empty header value both take the 400 branch. -/
def resolveTarget (parseURL : Str → Option Url) (reqUrl : Str)
    (hostHdr : Option Str) : Except ResolveError Url :=
  if isAbsoluteHttpUrl reqUrl then
    match parseURL reqUrl with
    | some u => Except.ok u
    | none => Except.error ResolveError.invalidUrl
  else
    match hostHdr with
    | none => Except.error ResolveError.missingHost
    | some h =>
      if h = [] then Except.error ResolveError.missingHost
      else
        match parseURL ("http://".toList ++ h ++ reqUrl) with
        | some u => Except.ok u
        | none => Except.error ResolveError.invalidUrl

/-- The outbound request the relay issues when it contacts the upstream. -/
structure UpstreamCall where
  target : Url
  method : Str
  headers : Headers
  body : List Nat
deriving DecidableEq

/-- Behaviour of the upstream leg of one HTTP-relay exchange:
either the transport fails before any response arrives (the `error` event
with no response), or a response with status/headers arrives and `body`
bytes of it are delivered, with `midTransferError` recording whether the
transport then failed before the body completed. -/
inductive HttpUpstream where
  | errorBeforeResponse
  | response (status : Nat) (headers : Headers) (body : List Nat)
      (midTransferError : Bool)

/-- What one HTTP-relay exchange did: the status/headers/body written to the
client, the upstream requests issued, and whether a second `res.writeHead`
was attempted after the response head was already sent — Node raises
`ERR_HTTP_HEADERS_SENT` there, so no second head reaches the client and the
raise escapes the `error` listener. -/
structure HttpOutcome where
  status : Option Nat
  headers : Headers
  body : List Nat
  upstreamCalls : List UpstreamCall
  raisedHeadersSent : Bool
deriving DecidableEq

/-- The `server.on('request')` handler (proxy.js lines 41-96).
Order of the source: authenticate (407), resolve the target (400s),
authorize the hostname (403), then issue the single upstream request;
an upstream `error` before any response gives a 502 `Bad Gateway`; on a
response the status is copied, the hop-by-hop names are deleted from the
headers, and the body is piped through; an upstream `error` mid-transfer
makes the handler call `res.writeHead(502)` a second time, which raises
instead of reaching the client. -/
def handleRequest (parseURL : Str → Option Url) (upstream : HttpUpstream)
    (cfg : ProxyConfig) (req : HttpRequest) : HttpOutcome :=
  if checkBasicAuth cfg (lookupHeader req.headers paKey) = false then
    { status := some 407,
      headers := [("Proxy-Authenticate".toList, "Basic realm=\"Proxy\"".toList)],
      body := utf8Encode ("Proxy authentication required".toList),
      upstreamCalls := [], raisedHeadersSent := false }
  else
    match resolveTarget parseURL req.url
        (lookupHeader req.headers hostKey) with
    | Except.error ResolveError.missingHost =>
      { status := some 400, headers := [],
        body := utf8Encode ("Bad Request: missing Host header".toList),
        upstreamCalls := [], raisedHeadersSent := false }
    | Except.error ResolveError.invalidUrl =>
      { status := some 400, headers := [],
        body := utf8Encode ("Bad Request: invalid URL".toList),
        upstreamCalls := [], raisedHeadersSent := false }
    | Except.ok target =>
      if hostAllowed cfg target.hostname = false then
        { status := some 403, headers := [],
          body := utf8Encode
            ("Forbidden: host not allowed by proxy whitelist".toList),
          upstreamCalls := [], raisedHeadersSent := false }
      else
        let call : UpstreamCall :=
          { target := target, method := req.method,
            headers := stripReqHeaders req.headers, body := req.body }
        match upstream with
        | HttpUpstream.errorBeforeResponse =>
          { status := some 502, headers := [],
            body := utf8Encode ("Bad Gateway".toList),
            upstreamCalls := [call], raisedHeadersSent := false }
        | HttpUpstream.response st hs b midErr =>
          { status := some st, headers := stripHopByHop hs, body := b,
            upstreamCalls := [call], raisedHeadersSent := midErr }

/-- Behaviour of the upstream leg of one CONNECT tunnel: the raw connect
fails (the `error` event before the callback), or it succeeds and
`fromUpstream` bytes flow back, with `midError` recording whether the
upstream socket then errored. -/
inductive TunnelUpstream where
  | connectFail
  | connected (fromUpstream : List Nat) (midError : Bool)

/-- What one CONNECT exchange did: every byte written to the client socket,
the `(host, port)` connect attempts, every byte written to the upstream
socket, and whether `clientSocket.destroy()` was called. -/
structure TunnelResult where
  toClient : List Nat
  connectAttempts : List (Str × Int)
  toUpstream : List Nat
  clientDestroyed : Bool
deriving DecidableEq

/-- `req.url.split(':')[0]` — the host component of the CONNECT target
(the destructured `host` of `const [host, portStr] = req.url.split(':')`). -/
def connectHost (reqUrl : Str) : Str :=
  (splitOnChar ':' reqUrl).headD []

/-- `req.url.split(':')[1]` — the port component of the CONNECT target
(the destructured `portStr`), `none` when the target has no colon
(destructuring yields `undefined`). -/
def connectPortStr (reqUrl : Str) : Option Str :=
  match splitOnChar ':' reqUrl with
  | _ :: p :: _ => some p
  | _ => none

/-- The `server.on('connect')` handler (proxy.js lines 99-132).
Order of the source: authenticate (raw 407 line, destroy), split the target
on `:` into host and port string with `parseInt(portStr, 10) || 443`,
authorize the host (raw 403 line, destroy), then `net.connect`; on connect
failure a raw 502 line is written and the socket destroyed; on success the
`200 Connection Established` line is written, the buffered `head` bytes (if
non-empty) are written to the upstream first, and the two sockets are piped
into each other; an upstream error mid-relay writes a raw 502 line and
destroys the client socket. -/
def handleConnect (upstream : TunnelUpstream) (cfg : ProxyConfig)
    (reqUrl : Str) (proxyAuth : Option Str) (head : List Nat)
    (clientStream : List Nat) : TunnelResult :=
  if checkBasicAuth cfg proxyAuth = false then
    { toClient := utf8Encode
        ("HTTP/1.1 407 Proxy Authentication Required\r\nProxy-Authenticate: Basic realm=\"Proxy\"\r\n\r\n".toList),
      connectAttempts := [], toUpstream := [], clientDestroyed := true }
  else
    let host := connectHost reqUrl
    let port : Int :=
      match connectPortStr reqUrl with
      | none => 443
      | some s =>
        match jsParseInt10 s with
        | none => 443
        | some n => if n = 0 then 443 else n
    if hostAllowed cfg host = false then
      { toClient := utf8Encode ("HTTP/1.1 403 Forbidden\r\n\r\n".toList),
        connectAttempts := [], toUpstream := [], clientDestroyed := true }
    else
      match upstream with
      | TunnelUpstream.connectFail =>
        { toClient := utf8Encode ("HTTP/1.1 502 Bad Gateway\r\n\r\n".toList),
          connectAttempts := [(host, port)], toUpstream := [],
          clientDestroyed := true }
      | TunnelUpstream.connected fromUp midErr =>
        { toClient :=
            utf8Encode ("HTTP/1.1 200 Connection Established\r\n\r\n".toList)
              ++ fromUp ++
              (if midErr then
                 utf8Encode ("HTTP/1.1 502 Bad Gateway\r\n\r\n".toList)
               else []),
          connectAttempts := [(host, port)],
          toUpstream := (if head = [] then [] else head) ++ clientStream,
          clientDestroyed := midErr }

/-! ### Helper lemmas about `splitOnChar` -/

theorem splitOnChar_ne_nil (sep : Char) (l : Str) : splitOnChar sep l ≠ [] := by
  induction l with
  | nil => simp [splitOnChar]
  | cons c cs ih =>
    simp only [splitOnChar]
    split
    · simp
    · split
      · simp
      · simp

theorem splitOnChar_head (sep : Char) (l : Str) :
    (splitOnChar sep l).headD [] = l.takeWhile (fun c => c != sep) := by
  induction l with
  | nil => simp [splitOnChar]
  | cons c cs ih =>
    simp only [splitOnChar, List.takeWhile_cons]
    by_cases hc : c = sep
    · simp [hc]
    · rw [if_neg hc]
      cases hr : splitOnChar sep cs with
      | nil => exact absurd hr (splitOnChar_ne_nil sep cs)
      | cons s rest =>
        rw [hr] at ih
        simp only [List.headD_cons] at ih
        simp [hc, ih]

theorem splitOnChar_of_not_mem (sep : Char) (l : Str) (h : sep ∉ l) :
    splitOnChar sep l = [l] := by
  induction l with
  | nil => simp [splitOnChar]
  | cons c cs ih =>
    have hc : ¬ c = sep := fun he => h (he ▸ List.mem_cons_self c cs)
    have hcs : sep ∉ cs := fun hm => h (List.mem_cons_of_mem c hm)
    simp only [splitOnChar, if_neg hc, ih hcs]

theorem splitOnChar_append (sep : Char) (u v : Str) (h : sep ∉ u) :
    splitOnChar sep (u ++ sep :: v) = u :: splitOnChar sep v := by
  induction u with
  | nil => simp [splitOnChar]
  | cons c u' ih =>
    have hc : ¬ c = sep := fun he => h (he ▸ List.mem_cons_self c u')
    have hu' : sep ∉ u' := fun hm => h (List.mem_cons_of_mem c hm)
    simp only [List.cons_append, splitOnChar, List.append_eq, if_neg hc,
      ih hu']

theorem takeWhile_ne_of_mem {sep : Char} {l : Str} (h : sep ∈ l) :
    l.takeWhile (fun c => c != sep) ≠ l := by
  induction l with
  | nil => cases h
  | cons c cs ih =>
    intro heq
    rw [List.takeWhile_cons] at heq
    by_cases hc : c = sep
    · simp [hc] at heq
    · have hb : (c != sep) = true := by simp [hc]
      rw [hb] at heq
      simp only [if_true] at heq
      have hcs : cs.takeWhile (fun c => c != sep) = cs :=
        List.tail_eq_of_cons_eq heq
      have hmem : sep ∈ cs := by
        cases List.mem_cons.mp h with
        | inl he => exact absurd he.symm hc
        | inr hm => exact hm
      exact ih hmem hcs

theorem takeWhile_append_stop {sep : Char} (u v : Str) (h : sep ∈ u) :
    (u ++ v).takeWhile (fun c => c != sep) =
      u.takeWhile (fun c => c != sep) := by
  induction u with
  | nil => cases h
  | cons c u' ih =>
    by_cases hc : c = sep
    · simp [List.takeWhile_cons, hc]
    · have hmem : sep ∈ u' := by
        cases List.mem_cons.mp h with
        | inl he => exact absurd he.symm hc
        | inr hm => exact hm
      simp [List.takeWhile_cons, hc, ih hmem]

theorem contains_eq_decide_mem (l : List Str) (a : Str) :
    l.contains a = decide (a ∈ l) := by
  by_cases hm : a ∈ l
  · simp [hm]
  · simp [hm]

/-! ### Helper lemmas about the credential comparison -/

theorem checkCreds_true_head {cfg : ProxyConfig} {parts : List Str}
    (h : checkCreds cfg parts = true) : parts.headD [] = cfg.user := by
  match parts with
  | [] => simp [checkCreds] at h
  | [u] => simp [checkCreds] at h
  | u :: p :: rest =>
    simp only [checkCreds, Bool.and_eq_true, beq_iff_eq] at h
    simpa using h.1

theorem checkBasicAuthDecoded_of_no_colon (cfg : ProxyConfig) (d : Str)
    (hd : ':' ∉ d) : checkBasicAuthDecoded cfg d = false := by
  unfold checkBasicAuthDecoded
  rw [splitOnChar_of_not_mem ':' d hd]
  rfl

theorem connectHost_hostport (host rest : Str) (hh : ':' ∉ host) :
    connectHost (host ++ ':' :: rest) = host := by
  unfold connectHost
  rw [splitOnChar_append ':' host rest hh]
  rfl

theorem connectHost_plain (host : Str) (hh : ':' ∉ host) :
    connectHost host = host := by
  unfold connectHost
  rw [splitOnChar_of_not_mem ':' host hh]
  rfl

theorem connectPortStr_hostport (host seg : Str) (hh : ':' ∉ host)
    (hs : ':' ∉ seg) :
    connectPortStr (host ++ ':' :: seg) = some seg := by
  unfold connectPortStr
  rw [splitOnChar_append ':' host seg hh, splitOnChar_of_not_mem ':' seg hs]

theorem connectPortStr_plain (host : Str) (hh : ':' ∉ host) :
    connectPortStr host = none := by
  unfold connectPortStr
  rw [splitOnChar_of_not_mem ':' host hh]

/-! ### Claims -/

/-- C4: for every hostname, when the configured allow-list is empty the
destination authorizer returns `true` — no configured list means all
destinations are permitted (fail-open). -/
theorem c4_empty_whitelist_allows_all (user pass : Str) (host : Str) :
    hostAllowed ⟨user, pass, []⟩ host = true := rfl

/-- C3: with a non-empty allow-list, `hostAllowed` strips the trailing
`:port` segment of a `host` or `host:port` hostname and returns `true`
exactly when the remaining host is a member of the allow-list under exact,
case-sensitive string equality (the decidable equality of `List Char`):
no wildcard, suffix, or case-insensitive matching. -/
theorem c3_whitelist_exact_match (cfg : ProxyConfig) (host rest : Str)
    (hw : cfg.whitelist ≠ []) (hh : ':' ∉ host) :
    hostAllowed cfg host = decide (host ∈ cfg.whitelist) ∧
    hostAllowed cfg (host ++ ':' :: rest) = decide (host ∈ cfg.whitelist) := by
  have hlen : ¬ cfg.whitelist.length = 0 := by
    simpa [List.length_eq_zero] using hw
  constructor
  · unfold hostAllowed
    rw [if_neg hlen, splitOnChar_of_not_mem ':' host hh]
    simp [contains_eq_decide_mem]
  · unfold hostAllowed
    rw [if_neg hlen, splitOnChar_append ':' host rest hh]
    simp [contains_eq_decide_mem]

/-- C3 witness: allow-list `["example.com"]`; `example.com` and
`example.com:8080` are allowed while the differently-cased `Example.com`
is not. -/
theorem c3_witness :
    hostAllowed ⟨"u".toList, "p".toList, ["example.com".toList]⟩
        ("example.com".toList) = decide
        (("example.com".toList : Str) ∈ [("example.com".toList : Str)]) ∧
    hostAllowed ⟨"u".toList, "p".toList, ["example.com".toList]⟩
        ("example.com".toList ++ ':' :: "8080".toList) = decide
        (("example.com".toList : Str) ∈ [("example.com".toList : Str)]) :=
  c3_whitelist_exact_match ⟨"u".toList, "p".toList, ["example.com".toList]⟩
    ("example.com".toList) ("8080".toList) (by decide) (by decide)

/-- C2 counterexample: the claim says the verifier splits on the first colon
only, so that with configured pair `u` / `a:b` the credential whose decoded
form is `u:a:b` (base64 `dTphOmI=`) verifies as `true`.  The code's
`decoded.split(':')` splits on every colon and truncates the password to
`a`, so the verifier returns `false`. -/
theorem c2_counterexample :
    checkBasicAuth ⟨"u".toList, "a:b".toList, []⟩
      (some ("Basic dTphOmI=".toList)) = false := by decide

/-- C2 (amended): the verifier splits the decoded string on every colon and
takes the first two components as username and password, so for every
configured pair whose password contains a colon, the credential whose
decoded form is exactly `user:pass` verifies as `false` (the compared
password component stops at the first colon of the password). -/
theorem c2_amended_colon_password_rejected (user pass : Str) (wl : List Str)
    (hp : ':' ∈ pass) :
    checkBasicAuthDecoded ⟨user, pass, wl⟩ (user ++ ':' :: pass) = false := by
  by_cases hu : ':' ∈ user
  · cases hres : checkBasicAuthDecoded ⟨user, pass, wl⟩ (user ++ ':' :: pass)
      with
    | false => rfl
    | true =>
      exfalso
      have hhead := checkCreds_true_head
        (show checkCreds ⟨user, pass, wl⟩
            (splitOnChar ':' (user ++ ':' :: pass)) = true by
          simpa [checkBasicAuthDecoded] using hres)
      rw [splitOnChar_head] at hhead
      rw [takeWhile_append_stop user (':' :: pass) hu] at hhead
      exact takeWhile_ne_of_mem hu hhead
  · unfold checkBasicAuthDecoded
    rw [splitOnChar_append ':' user pass hu]
    cases hsp : splitOnChar ':' pass with
    | nil => exact absurd hsp (splitOnChar_ne_nil ':' pass)
    | cons s rest =>
      have hs : s = pass.takeWhile (fun c => c != ':') := by
        have := splitOnChar_head ':' pass
        rw [hsp] at this
        simpa using this
      have hne : s ≠ pass := hs ▸ takeWhile_ne_of_mem hp
      simp [checkCreds, hne]

/-- C2 amended witness: configured pair `u` / `a:b`; the decoded credential
`u:a:b` verifies as `false`. -/
theorem c2_amended_witness :
    (':' ∈ "a:b".toList) ∧
    checkBasicAuthDecoded ⟨"u".toList, "a:b".toList, []⟩
      ("u".toList ++ ':' :: "a:b".toList) = false :=
  ⟨by decide, c2_amended_colon_password_rejected "u".toList "a:b".toList []
    (by decide)⟩

/-- C10: whenever the Basic payload of a credential decodes to a string
containing no colon at all, the verifier returns `false` — the destructured
password component is `undefined`, which never compares equal to the
configured (string) password, even when the decoded string equals the
configured username and the configured password is the empty string. -/
theorem c10_no_colon_rejected (cfg : ProxyConfig) (h payload : Str)
    (hp : basicPayload h = some payload)
    (hc : ':' ∉ utf8Decode (base64DecodeBytes payload)) :
    checkBasicAuth cfg (some h) = false := by
  simp only [checkBasicAuth]
  rw [hp]
  split
  · rfl
  · exact checkBasicAuthDecoded_of_no_colon cfg _ hc

/-- C10 witness: configured pair `proxyuser` / `""` (empty password); the
credential `Basic cHJveHl1c2Vy` decodes to exactly `proxyuser` (no colon)
and verifies as `false`. -/
theorem c10_witness :
    basicPayload ("Basic cHJveHl1c2Vy".toList) =
      some ("cHJveHl1c2Vy".toList) ∧
    (':' ∉ utf8Decode (base64DecodeBytes ("cHJveHl1c2Vy".toList))) ∧
    checkBasicAuth ⟨"proxyuser".toList, [], []⟩
      (some ("Basic cHJveHl1c2Vy".toList)) = false :=
  ⟨by decide, by decide,
   c10_no_colon_rejected ⟨"proxyuser".toList, [], []⟩
     ("Basic cHJveHl1c2Vy".toList) ("cHJveHl1c2Vy".toList)
     (by decide) (by decide)⟩

/-- C9 counterexample: the claim says every credential header with an
invalid base64 encoding yields `false`.  `*cHJveHl1c2VyOnByb3h5cGFzcw==` is
not valid base64 (`*` is outside the alphabet), but Node's decoder skips
invalid characters, the remainder decodes to `proxyuser:proxypass`, and with
that configured pair the verifier returns `true`. -/
theorem c9_counterexample :
    checkBasicAuth ⟨"proxyuser".toList, "proxypass".toList, []⟩
      (some ("Basic *cHJveHl1c2VyOnByb3h5cGFzcw==".toList)) = true := by
  decide

/-- C9 (amended): a credential header that is absent, that does not match
the `Basic` scheme pattern, or whose payload decodes to a string missing the
colon separator always yields `false`; the verifier is a total boolean
function (Node base64 decoding never throws), but an invalid base64 payload
is decoded forgivingly — characters outside the alphabet are ignored — so
it can still verify `true` when its remaining characters decode to the
configured credentials. -/
theorem c9_amended_malformed_rejected (cfg : ProxyConfig) (h : Str) :
    checkBasicAuth cfg none = false ∧
    (basicPayload h = none → checkBasicAuth cfg (some h) = false) ∧
    (∀ payload, basicPayload h = some payload →
      ':' ∉ utf8Decode (base64DecodeBytes payload) →
      checkBasicAuth cfg (some h) = false) := by
  refine ⟨rfl, ?_, ?_⟩
  · intro hnone
    simp only [checkBasicAuth]
    rw [hnone]
    split <;> rfl
  · intro payload hp hc
    simp only [checkBasicAuth]
    rw [hp]
    split
    · rfl
    · exact checkBasicAuthDecoded_of_no_colon cfg _ hc

/-- C9 amended witness: a header without the Basic scheme
(`NegotiateXYZ abc`) and a Basic header whose payload decodes to the
colon-free `hello` (`Basic aGVsbG8=`) both verify as `false`. -/
theorem c9_amended_witness :
    checkBasicAuth ⟨"proxyuser".toList, "proxypass".toList, []⟩ none
      = false ∧
    checkBasicAuth ⟨"proxyuser".toList, "proxypass".toList, []⟩
      (some ("NegotiateXYZ abc".toList)) = false ∧
    checkBasicAuth ⟨"proxyuser".toList, "proxypass".toList, []⟩
      (some ("Basic aGVsbG8=".toList)) = false := by
  have h1 := c9_amended_malformed_rejected
    ⟨"proxyuser".toList, "proxypass".toList, []⟩ ("NegotiateXYZ abc".toList)
  have h2 := c9_amended_malformed_rejected
    ⟨"proxyuser".toList, "proxypass".toList, []⟩ ("Basic aGVsbG8=".toList)
  exact ⟨h1.1, h1.2.1 (by decide),
    h2.2.2 ("aGVsbG8=".toList) (by decide) (by decide)⟩

/-- C5 counterexample: the claim says the destination port is the numeric
value of the port segment whenever one is present and numeric.  For the
target `example.com:0` the port segment is numeric with value `0`, but
`parseInt('0', 10) || 443` takes the `|| 443` branch (`0` is falsy), so the
upstream connection is attempted on port `443`, not `0`. -/
theorem c5_counterexample :
    (handleConnect (TunnelUpstream.connected [] false)
        ⟨"proxyuser".toList, "proxypass".toList, []⟩
        ("example.com:0".toList)
        (some ("Basic cHJveHl1c2VyOnByb3h5cGFzcw==".toList))
        [] []).connectAttempts
      = [(("example.com".toList : Str), (443 : Int))] ∧
    ((443 : Int) ≠ 0) := by
  constructor
  · decide
  · decide

/-- C5 (amended): in the tunnel relay, for a request target of the form
`host` or `host:portSegment` (authenticated and authorized), the destination
port of the upstream connection is the value of JavaScript
`parseInt(portSegment, 10)` — optional leading whitespace, optional sign,
then the longest leading run of decimal digits — whenever that value is
nonzero, and it defaults to `443` when the port segment is missing, yields
no digits at all, or parses to `0`. -/
theorem c5_amended_port_semantics (upstream : TunnelUpstream)
    (cfg : ProxyConfig) (host seg : Str) (auth : Option Str)
    (head cs : List Nat) (hh : ':' ∉ host) (hs : ':' ∉ seg)
    (hauth : checkBasicAuth cfg auth = true)
    (hallow : hostAllowed cfg host = true) :
    (handleConnect upstream cfg (host ++ ':' :: seg) auth head cs).connectAttempts
      = [(host, match jsParseInt10 seg with
                | none => (443 : Int)
                | some n => if n = 0 then 443 else n)] ∧
    (handleConnect upstream cfg host auth head cs).connectAttempts
      = [(host, (443 : Int))] := by
  constructor
  · cases upstream <;>
      simp [handleConnect, hauth, hallow, connectHost_hostport host seg hh,
        connectPortStr_hostport host seg hh hs]
  · cases upstream <;>
      simp [handleConnect, hauth, hallow, connectHost_plain host hh,
        connectPortStr_plain host hh]

/-- C5 amended witness: target `example.com:80abc` with good credentials and
an empty allow-list connects on port `80` (the leading digit run of the
segment), and the bare target `example.com` connects on port `443`. -/
theorem c5_amended_witness :
    (handleConnect (TunnelUpstream.connected [] false)
        ⟨"proxyuser".toList, "proxypass".toList, []⟩
        ("example.com".toList ++ ':' :: "80abc".toList)
        (some ("Basic cHJveHl1c2VyOnByb3h5cGFzcw==".toList))
        [] []).connectAttempts
      = [(("example.com".toList : Str),
          match jsParseInt10 ("80abc".toList) with
          | none => (443 : Int)
          | some n => if n = 0 then 443 else n)] ∧
    (handleConnect (TunnelUpstream.connected [] false)
        ⟨"proxyuser".toList, "proxypass".toList, []⟩
        ("example.com".toList)
        (some ("Basic cHJveHl1c2VyOnByb3h5cGFzcw==".toList))
        [] []).connectAttempts
      = [(("example.com".toList : Str), (443 : Int))] :=
  c5_amended_port_semantics (TunnelUpstream.connected [] false)
    ⟨"proxyuser".toList, "proxypass".toList, []⟩
    ("example.com".toList) ("80abc".toList)
    (some ("Basic cHJveHl1c2VyOnByb3h5cGFzcw==".toList)) [] []
    (by decide) (by decide) (by decide) (by decide)

/-- C1: in both relays no upstream connection is attempted unless the
authentication check and the destination-authorization check both succeeded
for the request, and a missing or incorrect `Proxy-Authorization` header
yields zero upstream connection attempts. -/
theorem c1_no_upstream_before_auth_and_authz
    (parseURL : Str → Option Url) (hup : HttpUpstream) (tup : TunnelUpstream)
    (cfg : ProxyConfig) (req : HttpRequest) (curl : Str)
    (cauth : Option Str) (head cs : List Nat) :
    ((handleRequest parseURL hup cfg req).upstreamCalls ≠ [] →
      checkBasicAuth cfg (lookupHeader req.headers paKey) = true ∧
      ∃ u, resolveTarget parseURL req.url
          (lookupHeader req.headers hostKey) = Except.ok u ∧
        hostAllowed cfg u.hostname = true) ∧
    ((handleConnect tup cfg curl cauth head cs).connectAttempts ≠ [] →
      checkBasicAuth cfg cauth = true ∧
      hostAllowed cfg (connectHost curl) = true) ∧
    (checkBasicAuth cfg (lookupHeader req.headers paKey) = false →
      (handleRequest parseURL hup cfg req).upstreamCalls = []) ∧
    (checkBasicAuth cfg cauth = false →
      (handleConnect tup cfg curl cauth head cs).connectAttempts = []) := by
  refine ⟨?_, ?_, ?_, ?_⟩
  · intro hne
    cases hauth : checkBasicAuth cfg (lookupHeader req.headers paKey) with
    | false =>
      exact absurd (by simp [handleRequest, hauth]) hne
    | true =>
      cases hres : resolveTarget parseURL req.url
          (lookupHeader req.headers hostKey) with
      | error e =>
        exact absurd (by cases e <;> simp [handleRequest, hauth, hres]) hne
      | ok u =>
        cases hallow : hostAllowed cfg u.hostname with
        | false =>
          exact absurd (by simp [handleRequest, hauth, hres, hallow]) hne
        | true => exact ⟨rfl, u, rfl, hallow⟩
  · intro hne
    cases hauth : checkBasicAuth cfg cauth with
    | false =>
      exact absurd (by simp [handleConnect, hauth]) hne
    | true =>
      cases hallow : hostAllowed cfg (connectHost curl) with
      | false =>
        exact absurd (by simp [handleConnect, hauth, hallow]) hne
      | true => exact ⟨rfl, rfl⟩
  · intro hauth
    simp [handleRequest, hauth]
  · intro hauth
    simp [handleConnect, hauth]

/-- C1 witness: with no `Proxy-Authorization` header at all, neither relay
attempts an upstream connection. -/
theorem c1_witness :
    (handleRequest (fun _ => none) HttpUpstream.errorBeforeResponse
        ⟨"proxyuser".toList, "proxypass".toList, []⟩
        ⟨"GET".toList, "http://example.com/".toList, [], []⟩).upstreamCalls
      = [] ∧
    (handleConnect TunnelUpstream.connectFail
        ⟨"proxyuser".toList, "proxypass".toList, []⟩
        ("example.com:443".toList) none [] []).connectAttempts = [] := by
  have h := c1_no_upstream_before_auth_and_authz (fun _ => none)
    HttpUpstream.errorBeforeResponse TunnelUpstream.connectFail
    ⟨"proxyuser".toList, "proxypass".toList, []⟩
    ⟨"GET".toList, "http://example.com/".toList, [], []⟩
    ("example.com:443".toList) none [] []
  exact ⟨h.2.2.1 (by decide), h.2.2.2 (by decide)⟩

/-- C6: for an authenticated, authorized CONNECT whose upstream connection
succeeds, the client receives exactly the bytes of
`HTTP/1.1 200 Connection Established\r\n\r\n` followed by the bytes that
came from the upstream, and the upstream receives the bytes buffered past
the request head first, followed by the client's stream — no byte dropped
or modified in either direction. -/
theorem c6_tunnel_establishment (cfg : ProxyConfig) (curl : Str)
    (auth : Option Str) (head cs fromUp : List Nat)
    (hauth : checkBasicAuth cfg auth = true)
    (hallow : hostAllowed cfg (connectHost curl) = true) :
    (handleConnect (TunnelUpstream.connected fromUp false)
        cfg curl auth head cs).toClient
      = utf8Encode ("HTTP/1.1 200 Connection Established\r\n\r\n".toList)
        ++ fromUp ∧
    (handleConnect (TunnelUpstream.connected fromUp false)
        cfg curl auth head cs).toUpstream = head ++ cs := by
  constructor
  · simp [handleConnect, hauth, hallow]
  · cases head <;> simp [handleConnect, hauth, hallow]

/-- C6 witness: a concrete authenticated, authorized tunnel with buffered
head bytes `[1, 2]`, client stream `[3, 4]` and upstream bytes `[5, 6]`. -/
theorem c6_witness :
    (handleConnect (TunnelUpstream.connected [5, 6] false)
        ⟨"proxyuser".toList, "proxypass".toList, []⟩
        ("example.com:443".toList)
        (some ("Basic cHJveHl1c2VyOnByb3h5cGFzcw==".toList))
        [1, 2] [3, 4]).toClient
      = utf8Encode ("HTTP/1.1 200 Connection Established\r\n\r\n".toList)
        ++ [5, 6] ∧
    (handleConnect (TunnelUpstream.connected [5, 6] false)
        ⟨"proxyuser".toList, "proxypass".toList, []⟩
        ("example.com:443".toList)
        (some ("Basic cHJveHl1c2VyOnByb3h5cGFzcw==".toList))
        [1, 2] [3, 4]).toUpstream = [1, 2] ++ [3, 4] :=
  c6_tunnel_establishment ⟨"proxyuser".toList, "proxypass".toList, []⟩
    ("example.com:443".toList)
    (some ("Basic cHJveHl1c2VyOnByb3h5cGFzcw==".toList))
    [1, 2] [3, 4] [5, 6] (by decide) (by decide)

/-- C7: for an authenticated, authorized HTTP-relay request with a
successful upstream response, the status sent to the client equals the
upstream status, the headers sent equal the upstream headers minus exactly
the hop-by-hop set `transfer-encoding, connection, keep-alive,
proxy-authenticate, proxy-authorization, te, trailer, upgrade`, and the
relayed body bytes equal the upstream body bytes. -/
theorem c7_http_relay_response (parseURL : Str → Option Url)
    (cfg : ProxyConfig) (req : HttpRequest) (u : Url)
    (st : Nat) (hs : Headers) (b : List Nat)
    (hauth : checkBasicAuth cfg (lookupHeader req.headers paKey) = true)
    (hres : resolveTarget parseURL req.url
      (lookupHeader req.headers hostKey) = Except.ok u)
    (hallow : hostAllowed cfg u.hostname = true) :
    handleRequest parseURL (HttpUpstream.response st hs b false) cfg req =
      { status := some st,
        headers := hs.filter (fun kv => !(hopByHopNames.contains kv.1)),
        body := b,
        upstreamCalls := [⟨u, req.method, stripReqHeaders req.headers,
          req.body⟩],
        raisedHeadersSent := false } := by
  simp [handleRequest, hauth, hres, hallow, stripHopByHop]

/-- C7 witness: configured allow-list `["api.example.com"]`, a request for
`http://api.example.com/data` with good credentials, an upstream `200`
response carrying a hop-by-hop `connection` header and body `ok`. -/
theorem c7_witness :
    handleRequest (fun _ => some ⟨"api.example.com".toList⟩)
        (HttpUpstream.response 200
          [("content-type".toList, "application/json".toList),
           ("connection".toList, "close".toList)] [111, 107] false)
        ⟨"proxyuser".toList, "proxypass".toList, ["api.example.com".toList]⟩
        ⟨"GET".toList, "http://api.example.com/data".toList,
         [("proxy-authorization".toList,
           "Basic cHJveHl1c2VyOnByb3h5cGFzcw==".toList)], []⟩ =
      { status := some 200,
        headers :=
          ([("content-type".toList, "application/json".toList),
            ("connection".toList, "close".toList)] : Headers).filter
            (fun kv => !(hopByHopNames.contains kv.1)),
        body := [111, 107],
        upstreamCalls := [⟨⟨"api.example.com".toList⟩, "GET".toList,
          stripReqHeaders
            [("proxy-authorization".toList,
              "Basic cHJveHl1c2VyOnByb3h5cGFzcw==".toList)], []⟩],
        raisedHeadersSent := false } :=
  c7_http_relay_response (fun _ => some ⟨"api.example.com".toList⟩)
    ⟨"proxyuser".toList, "proxypass".toList, ["api.example.com".toList]⟩
    ⟨"GET".toList, "http://api.example.com/data".toList,
     [("proxy-authorization".toList,
       "Basic cHJveHl1c2VyOnByb3h5cGFzcw==".toList)], []⟩
    ⟨"api.example.com".toList⟩ 200
    [("content-type".toList, "application/json".toList),
     ("connection".toList, "close".toList)] [111, 107]
    (by decide) rfl (by decide)

/-- C8: evaluation at the failing input.  For an authenticated, authorized
HTTP-relay request whose upstream delivers a `200` response head and then
fails mid-transfer, the client's response status stays `200` — no 502
reaches the client — and the handler's second `res.writeHead(502)` is the
write-after-headers-sent that Node rejects with `ERR_HTTP_HEADERS_SENT`
(an uncaught exception inside the `error` listener). -/
theorem c8_mid_transfer_error_gets_no_502 :
    (handleRequest (fun _ => some ⟨"example.com".toList⟩)
        (HttpUpstream.response 200 [] [104, 105] true)
        ⟨"proxyuser".toList, "proxypass".toList, []⟩
        ⟨"GET".toList, "http://example.com/".toList,
         [("proxy-authorization".toList,
           "Basic cHJveHl1c2VyOnByb3h5cGFzcw==".toList)], []⟩).status
      = some 200 ∧
    (handleRequest (fun _ => some ⟨"example.com".toList⟩)
        (HttpUpstream.response 200 [] [104, 105] true)
        ⟨"proxyuser".toList, "proxypass".toList, []⟩
        ⟨"GET".toList, "http://example.com/".toList,
         [("proxy-authorization".toList,
           "Basic cHJveHl1c2VyOnByb3h5cGFzcw==".toList)], []⟩).raisedHeadersSent
      = true ∧
    (handleRequest (fun _ => some ⟨"example.com".toList⟩)
        (HttpUpstream.response 200 [] [104, 105] true)
        ⟨"proxyuser".toList, "proxypass".toList, []⟩
        ⟨"GET".toList, "http://example.com/".toList,
         [("proxy-authorization".toList,
           "Basic cHJveHl1c2VyOnByb3h5cGFzcw==".toList)], []⟩).status
      ≠ some 502 := by
  refine ⟨by decide, by decide, by decide⟩

end TeheProxy
